import Mathlib

/-!
# VeriCite-Academic: verification of the citation-audit pipeline

A shallow embedding of the citation verification pipeline of the
VeriCite-Academic repository, together with theorems checking the
natural-language specification against it.

The repository ships three variants of the pipeline function
`parseAndVerifyCitations`:
* `src/api/verify.ts` — the serverless endpoint version (no review pass);
* `src/src/services/geminiService.ts` — the client version with the
  "skeptic review" pass;
* `src/unnamed/part_001` — a simpler variant (no grounding signal, no
  review pass).

External calls (the generative model, the Crossref registry) are modelled
as oracle inputs: each call either succeeds with a value or fails, exactly
mirroring where the TypeScript code would receive a response or have an
exception propagate.  Machine reals (confidence scores) are modelled as
rationals; all the scores appearing in the code are exact decimal literals.
-/

/-! ## Characters and basic string machinery -/

/-- JS `\w` word characters (ASCII letters, digits, underscore): used by the
`\b` word-boundary assertions of the DOI regular expressions. -/
def isWordChar (c : Char) : Bool := c.isAlphanum || c == '_'

/-- Lowercasing, embedding JS `String.prototype.toLowerCase` (ASCII). -/
def toLowerStr (s : String) : String := String.mk (s.toList.map Char.toLower)

/-- Does `pat` occur at the start of `l`? -/
def startsWithL : List Char → List Char → Bool
  | [], _ => true
  | _ :: _, [] => false
  | p :: ps, c :: cs => p == c && startsWithL ps cs

/-- Does `pat` occur anywhere in `l`?  Embeds JS `String.prototype.includes`. -/
def containsL (pat : List Char) : List Char → Bool
  | [] => pat.isEmpty
  | c :: cs => startsWithL pat (c :: cs) || containsL pat cs

/-- `containsSub s pat`: embeds `s.includes(pat)` from the source. -/
def containsSub (s pat : String) : Bool := containsL pat.toList s.toList

/-- Greedily take the longest prefix of characters satisfying `p`,
returning it together with the rest of the list. -/
def grabWhile (p : Char → Bool) : List Char → List Char × List Char
  | [] => ([], [])
  | c :: cs =>
    if p c then (c :: (grabWhile p cs).1, (grabWhile p cs).2)
    else ([], c :: cs)

/-! ## The DOI regular expressions

`src/api/verify.ts` (also `src/src/services/geminiService.ts`) scans the raw
fragment text with

  `/\b(10[.][0-9]{4,}(?:[.][0-9]+)*\/(?:(?!["&'<>])\S)+)\b/i`

and `src/unnamed/part_001` with the simpler `/\b10\.\d{4,9}\/\S+\b/i`.
The matchers below embed the first-match (leftmost, greedy, with
backtracking only in the trailing suffix against the final `\b`) semantics
of `String.prototype.match(...)[0]`.  Backtracking inside the digit runs and
the dot-separated groups never succeeds (giving characters back always
leaves a digit in a position that needs `.` or `/`), so those parts are
deterministic greedy runs. -/

/-- Characters admitted by `(?:(?!["&'<>])\S)` — the suffix class of the
DOI regex in `api/verify.ts` and `geminiService.ts`: anything that is not
whitespace and not one of `"` `&` `'` `<` `>`. -/
def suffixOkApi (c : Char) : Bool :=
  !(c == Char.ofNat 34 || c == '&' || c == Char.ofNat 39 || c == '<' || c == '>')
    && !c.isWhitespace

/-- Is there a word boundary between character `a` and the next character
(`none` when `a` is last)? -/
def boundaryAfter (a : Char) : Option Char → Bool
  | some b => isWordChar a != isWordChar b
  | none => isWordChar a

/-- Give back characters from the end of the greedy suffix run
(presented reversed) until the trailing `\b` assertion holds; `nxt` is the
character immediately after the run.  Returns the kept (still reversed)
nonempty suffix or `none`. -/
def trimRev : List Char → Option Char → Option (List Char)
  | [], _ => none
  | a :: as, nxt => if boundaryAfter a nxt then some (a :: as) else trimRev as (some a)

/-- Trim the greedy suffix run `sfx` (followed by `rest`) to the longest
nonempty prefix ending at a word boundary. -/
def trimToBoundary (sfx rest : List Char) : Option (List Char) :=
  (trimRev sfx.reverse rest.head?).map List.reverse

/- State machine for the group pattern: `vgRun` is the state inside a digit
run, `vgStart` the state right after a dot (at least one digit required). -/
mutual

def vgRun : List Char → Bool
  | [] => true
  | c :: cs => if c.isDigit then vgRun cs else if c == '.' then vgStart cs else false

def vgStart : List Char → Bool
  | [] => false
  | c :: cs => c.isDigit && vgRun cs

end

/-- Does `l` consist exactly of zero or more `.`-prefixed digit groups
(`(?:[.][0-9]+)*`)? -/
def validGroups : List Char → Bool
  | [] => true
  | c :: cs => c == '.' && vgStart cs

/-- Match of the DOI regex of `api/verify.ts` anchored at the head of `l`;
`prevWord` says whether the character before `l` is a word character (for
the leading `\b`; the pattern starts with the word character `1`). -/
def matchDoiAt (prevWord : Bool) (l : List Char) : Option (List Char) :=
  match l with
  | '1' :: '0' :: '.' :: rest =>
    if prevWord then none else
    let ds := (grabWhile Char.isDigit rest).1
    let r1 := (grabWhile Char.isDigit rest).2
    if ds.length < 4 then none else
    let g := (grabWhile (fun c => !(c == '/')) r1).1
    match (grabWhile (fun c => !(c == '/')) r1).2 with
    | '/' :: r3 =>
      if !validGroups g then none else
      let sfx := (grabWhile suffixOkApi r3).1
      let r4 := (grabWhile suffixOkApi r3).2
      match trimToBoundary sfx r4 with
      | some sfx2 => some ('1' :: '0' :: '.' :: (ds ++ g ++ '/' :: sfx2))
      | none => none
    | _ => none
  | _ => none

/-- Leftmost match: try each start position in turn, tracking whether the
previous character is a word character. -/
def findDoiAux : Bool → List Char → Option (List Char)
  | _, [] => none
  | prevWord, c :: cs =>
    match matchDoiAt prevWord (c :: cs) with
    | some m => some m
    | none => findDoiAux (isWordChar c) cs

/-- `rawText.match(doiRegex)?.[0]` for the `api/verify.ts` regex. -/
def doiFirstMatch (s : String) : Option String :=
  (findDoiAux false s.toList).map String.mk

/-- Identifier extraction of `api/verify.ts` lines 75–82 (and
`geminiService.ts` lines 70–75): keep the extractor-supplied identifier if
truthy (the empty string models JS falsy/absent), otherwise take the first
regex match from the raw text, otherwise leave it absent. -/
def extractDoi (knownDoi : String) (rawText : String) : String :=
  if knownDoi == "" then
    match doiFirstMatch rawText with
    | some m => m
    | none => ""
  else knownDoi

/-- Match of the `part_001` DOI regex `\b10\.\d{4,9}\/\S+\b` anchored at
the head of `l`. -/
def matchDoi001At (prevWord : Bool) (l : List Char) : Option (List Char) :=
  match l with
  | '1' :: '0' :: '.' :: rest =>
    if prevWord then none else
    let ds := (grabWhile Char.isDigit rest).1
    if ds.length < 4 || 9 < ds.length then none else
    match (grabWhile Char.isDigit rest).2 with
    | '/' :: r3 =>
      let sfx := (grabWhile (fun c => !c.isWhitespace) r3).1
      let r4 := (grabWhile (fun c => !c.isWhitespace) r3).2
      match trimToBoundary sfx r4 with
      | some sfx2 => some ('1' :: '0' :: '.' :: (ds ++ '/' :: sfx2))
      | none => none
    | _ => none
  | _ => none

def findDoi001Aux : Bool → List Char → Option (List Char)
  | _, [] => none
  | prevWord, c :: cs =>
    match matchDoi001At prevWord (c :: cs) with
    | some m => some m
    | none => findDoi001Aux (isWordChar c) cs

def doiFirstMatch001 (s : String) : Option String :=
  (findDoi001Aux false s.toList).map String.mk

/-- Identifier extraction of `part_001` lines 85–90. -/
def extractDoi001 (knownDoi : String) (rawText : String) : String :=
  if knownDoi == "" then
    match doiFirstMatch001 rawText with
    | some m => m
    | none => ""
  else knownDoi

/-! ## Grammar checkers

`doiGrammarCheckP p` decides whether a whole string fits the DOI grammar
`10.` + at least four digits + optional `.`-separated digit sub-segments +
`/` + one or more characters satisfying `p`.  Because a digit run must be
maximal in any parse (the following element begins with `.` or `/`), the
greedy check below recognises exactly that grammar. -/

def doiGrammarCheckP (p : Char → Bool) (l : List Char) : Bool :=
  match l with
  | '1' :: '0' :: '.' :: rest =>
    let ds := (grabWhile Char.isDigit rest).1
    let r1 := (grabWhile Char.isDigit rest).2
    decide (4 ≤ ds.length) &&
    (match (grabWhile (fun c => !(c == '/')) r1).2 with
     | '/' :: r3 =>
       validGroups (grabWhile (fun c => !(c == '/')) r1).1
         && !r3.isEmpty && r3.all p
     | _ => false)
  | _ => false

/-- Suffix class as the spec words it: "one or more non-quote/non-angle-bracket
characters" (so anything except `"` `'` `<` `>`). -/
def suffixOkClaim (c : Char) : Bool :=
  !(c == Char.ofNat 34 || c == Char.ofNat 39 || c == '<' || c == '>')

/-- Modelled from the spec's words (claim C8): the DOI grammar exactly as the
spec describes it — prefix `10.` plus at least four digits, optional
dot-separated digit sub-segments, a slash, then one or more non-quote,
non-angle-bracket characters.  Used only to compare the spec's grammar with
the grammar the code's regex actually implements. -/
def doiClaimGrammar (l : List Char) : Bool := doiGrammarCheckP suffixOkClaim l

/-! ## Data model

Statuses are modelled as the strings of the TypeScript enum
`CitationStatus` (`src/src/types.ts`): the enum members are string-valued
and the skeptic review pass writes `review.newStatus as CitationStatus`
without any runtime check, so the status field can at runtime hold an
arbitrary string. -/

/-- The enum values of `CitationStatus`. -/
def citationStatusValues : List String :=
  ["VERIFIED", "PARTIAL_MATCH", "UNVERIFIED", "HALLUCINATION", "PENDING"]

/-- A Crossref `message` record, projected to the fields the code reads:
`title` (a list of strings), `author` (given/family pairs, absent when the
payload has none), and the already-projected year strings
`created['date-parts'][0][0].toString()` and `issued[...]`. -/
structure CrossrefRecord where
  title : List String
  author : Option (List (String × String))
  created : Option String
  issued : Option String
  deriving Repr, DecidableEq

/-- One element of the JSON array returned by the extraction call
(`id` and `rawText` required by the response schema; the empty string
models a JS-falsy/absent `id` or `doi`). -/
structure ExtractedItem where
  id : String
  rawText : String
  title : Option String
  authors : Option (List String)
  year : Option String
  doi : String
  deriving Repr, DecidableEq

/-- Per-item external outcomes for `api/verify.ts` and `geminiService.ts`:
the Crossref lookup result (already `none` on any lookup failure — the
helper catches and returns null), the verification call's text, its
grounding chunks' `web.uri` fields, and the value `Math.random()...` would
generate for a missing id. -/
structure ItemEnv where
  crossref : Option CrossrefRecord
  verifyText : String
  groundingUris : List (Option String)
  genId : String
  deriving Repr, DecidableEq

/-- Per-item external outcomes for `part_001` (its verification call has no
grounding tool and it never generates ids). -/
structure ItemEnv001 where
  crossref : Option CrossrefRecord
  verifyText : String
  deriving Repr, DecidableEq

structure ParsedMetadata where
  title : Option String
  authors : Option (List String)
  year : Option String
  doi : String
  deriving Repr, DecidableEq

structure Citation where
  id : String
  rawText : String
  parsedMetadata : ParsedMetadata
  status : String
  confidenceScore : ℚ
  verificationSource : String
  sourceUrl : Option String
  explanation : String
  deriving Repr, DecidableEq

structure Summary where
  total : Nat
  verified : Nat
  hallucinated : Nat
  unverified : Nat
  deriving Repr, DecidableEq

structure MultiStyleBib where
  apa : String
  mla : String
  chicago : String
  ieee : String
  deriving Repr, DecidableEq

structure VerificationResult where
  citations : List Citation
  summary : Summary
  multiStyleBib : Option MultiStyleBib
  deriving Repr, DecidableEq

/-- One element of the skeptic review response array (`geminiService.ts`
lines 148–160): `newStatus` is an arbitrary string — the schema constrains
it only to `Type.STRING`. -/
structure ReviewItem where
  id : String
  newStatus : String
  reasoning : String
  deriving Repr, DecidableEq

/-- `part_001` requests its bibliography with no response schema, so its
`multiStyleBib` is an arbitrary parsed JSON object, modelled as a
key/value list. -/
structure Result001 where
  citations : List Citation
  summary : Summary
  multiStyleBib : Option (List (String × String))
  deriving Repr, DecidableEq

/-! ## Evidence fusion -/

/-- Evidence fusion of `api/verify.ts` lines 107–127: sequential
overwrites of a default `(UNVERIFIED, 0.5)`. -/
def fuse (registryMatch groundingMatch fabricationSignal : Bool) : String × ℚ :=
  let sc : String × ℚ := ("UNVERIFIED", 0.5)
  let sc := if registryMatch || groundingMatch then ("PARTIAL_MATCH", 0.75) else sc
  let sc := if registryMatch && groundingMatch then ("VERIFIED", 0.99) else sc
  if fabricationSignal then ("HALLUCINATION", 0.95) else sc

/-- Evidence fusion of `geminiService.ts` lines 101–121: the outer guard
also fires on the word "verified" in the response text, but only the two
evidence booleans are consulted inside. -/
def fuseService (registryMatch groundingMatch verifiedWord fabricationSignal : Bool) :
    String × ℚ :=
  let sc : String × ℚ := ("UNVERIFIED", 0.5)
  let sc :=
    if registryMatch || verifiedWord || groundingMatch then
      if registryMatch && groundingMatch then ("VERIFIED", 0.99)
      else if registryMatch || groundingMatch then ("PARTIAL_MATCH", 0.75)
      else sc
    else sc
  if fabricationSignal then ("HALLUCINATION", 0.95) else sc

/-- Evidence fusion of `part_001` lines 106–117: hallucination keyword
first, else a registry match or the word "verified" yields `VERIFIED`. -/
def fusePart001 (registryMatch verifiedWord hallucinationWord : Bool) : String × ℚ :=
  if hallucinationWord then ("HALLUCINATION", 0.95)
  else if registryMatch || verifiedWord then ("VERIFIED", 0.98)
  else ("UNVERIFIED", 0.5)

/-- Modelled from the spec's words (§4.3, claim C1): the eight-case fusion
table, fabrication signal overriding, both signals `VERIFIED`, exactly one
`PARTIAL_MATCH`, none `UNVERIFIED`.  Used only to compare the table the
spec states with the fusion the code implements. -/
def fuseSpec (registryMatch groundingMatch fabricationSignal : Bool) : String × ℚ :=
  if fabricationSignal then ("HALLUCINATION", 0.95)
  else if registryMatch && groundingMatch then ("VERIFIED", 0.99)
  else if registryMatch || groundingMatch then ("PARTIAL_MATCH", 0.75)
  else ("UNVERIFIED", 0.5)

/-! ## Per-item processing -/

/-- JS `a || b` on optional strings (the empty string is falsy). -/
def jsOrStr (a b : Option String) : Option String :=
  match a with
  | some s => if s == "" then b else some s
  | none => b

/-- JS `a || b` on optional arrays (any array, even empty, is truthy). -/
def jsOrList (a b : Option (List String)) : Option (List String) :=
  match a with
  | some l => some l
  | none => b

/-- JS `a ?? b` (nullish coalescing). -/
def nullishOr {α : Type} (a b : Option α) : Option α :=
  match a with
  | some x => some x
  | none => b

/-- `crossrefData?.author?.map(a => a.given + " " + a.family)`. -/
def crAuthors (cr : Option CrossrefRecord) : Option (List String) :=
  (cr.bind (fun c => c.author)).map (List.map (fun a => a.1 ++ " " ++ a.2))

/-- `groundingChunks[0]?.web?.uri || (doi ? "https://doi.org/"+doi : undefined)`. -/
def firstUriOr (uris : List (Option String)) (doi : String) : Option String :=
  let first :=
    match uris.head? with
    | some (some u) => if u == "" then none else some u
    | _ => none
  match first with
  | some u => some u
  | none => if doi == "" then none else some ("https://doi.org/" ++ doi)

/-- The body of the verification loop of `api/verify.ts` lines 74–153 for
one extracted item. -/
def processItemApi (item : ExtractedItem) (env : ItemEnv) : Citation :=
  let doi := extractDoi item.doi item.rawText
  let crossrefData := if doi == "" then none else env.crossref
  let responseText := toLowerStr env.verifyText
  let fab := containsSub responseText "hallucinated"
    || containsSub responseText "fabricated" || containsSub responseText "fake"
  let sc := fuse crossrefData.isSome (!env.groundingUris.isEmpty) fab
  { id := if item.id == "" then env.genId else item.id
  , rawText := item.rawText
  , parsedMetadata :=
      { title := jsOrStr (crossrefData.bind (fun c => c.title.head?)) item.title
      , authors := jsOrList (crAuthors crossrefData) item.authors
      , year := jsOrStr (crossrefData.bind (fun c => c.created)) item.year
      , doi := doi }
  , status := sc.1
  , confidenceScore := sc.2
  , explanation := env.verifyText
  , sourceUrl := firstUriOr env.groundingUris doi
  , verificationSource :=
      (if crossrefData.isSome then "Crossref " else "")
        ++ (if !env.groundingUris.isEmpty then "+ Web Search" else "") }

/-- The body of the verification loop of `geminiService.ts` lines 69–138
for one extracted item. -/
def processItemService (item : ExtractedItem) (env : ItemEnv) : Citation :=
  let doi := extractDoi item.doi item.rawText
  let crossrefData := if doi == "" then none else env.crossref
  let responseText := toLowerStr env.verifyText
  let fab := containsSub responseText "hallucinated"
    || containsSub responseText "fabricated" || containsSub responseText "fake"
  let sc := fuseService crossrefData.isSome (!env.groundingUris.isEmpty)
    (containsSub responseText "verified") fab
  { id := if item.id == "" then env.genId else item.id
  , rawText := item.rawText
  , parsedMetadata :=
      { title := jsOrStr (crossrefData.bind (fun c => c.title.head?)) item.title
      , authors := jsOrList (crAuthors crossrefData) item.authors
      , year := jsOrStr (crossrefData.bind (fun c => c.created)) item.year
      , doi := doi }
  , status := sc.1
  , confidenceScore := sc.2
  , explanation := env.verifyText
  , sourceUrl := firstUriOr env.groundingUris doi
  , verificationSource :=
      (if crossrefData.isSome then "Crossref " else "")
        ++ (if !env.groundingUris.isEmpty then "+ Web Scholarly Index" else "") }

/-- The body of the verification loop of `part_001` lines 84–139. -/
def processItem001 (item : ExtractedItem) (env : ItemEnv001) : Citation :=
  let doi := extractDoi001 item.doi item.rawText
  let crossref := if doi == "" then none else env.crossref
  let r := toLowerStr env.verifyText
  let sc := fusePart001 crossref.isSome (containsSub r "verified")
    (containsSub r "hallucination")
  { id := item.id
  , rawText := item.rawText
  , parsedMetadata :=
      { title := nullishOr (crossref.bind (fun c => c.title.head?)) item.title
      , authors := nullishOr (crAuthors crossref) item.authors
      , year := nullishOr (crossref.bind (fun c => c.issued)) item.year
      , doi := doi }
  , status := sc.1
  , confidenceScore := sc.2
  , explanation := env.verifyText
  , sourceUrl := if doi == "" then none else some ("https://doi.org/" ++ doi)
  , verificationSource := if crossref.isSome then "Crossref" else "Gemini" }

/-! ## Review pass and pipelines -/

/-- Skeptic review application, `geminiService.ts` lines 163–174: take the
first review whose id matches, apply its status only when it differs,
appending the reasoning to the explanation. -/
def applyReview (reviews : List ReviewItem) (c : Citation) : Citation :=
  match reviews.find? (fun r => r.id == c.id) with
  | some review =>
    if review.newStatus == c.status then c
    else { c with
        status := review.newStatus,
        explanation := c.explanation ++ "\n\n[Skeptic Review]: " ++ review.reasoning }
  | none => c

/-- Summary assembly of `api/verify.ts` lines 190–201 and
`geminiService.ts` lines 206–211. -/
def mkSummary (citations : List Citation) : Summary :=
  { total := citations.length
  , verified := (citations.filter (fun c => c.status == "VERIFIED")).length
  , hallucinated := (citations.filter (fun c => c.status == "HALLUCINATION")).length
  , unverified :=
      (citations.filter
        (fun c => c.status == "UNVERIFIED" || c.status == "PARTIAL_MATCH")).length }

/-- Summary assembly of `part_001` lines 167–176: `unverified` counts only
the `UNVERIFIED` status. -/
def mkSummary001 (citations : List Citation) : Summary :=
  { total := citations.length
  , verified := (citations.filter (fun c => c.status == "VERIFIED")).length
  , hallucinated := (citations.filter (fun c => c.status == "HALLUCINATION")).length
  , unverified := (citations.filter (fun c => c.status == "UNVERIFIED")).length }

/-- The per-item loop over the extracted array.  Each iteration makes a
verification call whose outcome is `env i`; a thrown exception (the
`Except.error` case) propagates out of the loop, as there is no try/catch
inside `parseAndVerifyCitations`. -/
def mapProcessWith {ε : Type} (f : ExtractedItem → ε → Citation)
    (env : Nat → Except String ε) : Nat → List ExtractedItem → Except String (List Citation)
  | _, [] => Except.ok []
  | i, item :: rest =>
    match env i with
    | Except.error m => Except.error m
    | Except.ok e =>
      match mapProcessWith f env (i + 1) rest with
      | Except.error m => Except.error m
      | Except.ok cs => Except.ok (f item e :: cs)

/-- An external call made only when `needed`; its failure propagates. -/
def runExternal {α : Type} (needed : Bool) (call : Except String α) :
    Except String (Option α) :=
  if needed then
    match call with
    | Except.ok a => Except.ok (some a)
    | Except.error m => Except.error m
  else Except.ok none

def exceptIsOk {ε α : Type} : Except ε α → Bool
  | Except.ok _ => true
  | Except.error _ => false

/-- `parseAndVerifyCitations` of `api/verify.ts`: extraction (the model
response together with its `JSON.parse`), the per-item loop, the
conditional bibliography call, and the summary. -/
def apiPipelineE (extraction : Except String (List ExtractedItem))
    (env : Nat → Except String ItemEnv) (bib : Except String MultiStyleBib) :
    Except String VerificationResult :=
  match extraction with
  | Except.error m => Except.error m
  | Except.ok items =>
    match mapProcessWith processItemApi env 0 items with
    | Except.error m => Except.error m
    | Except.ok citations =>
      let verified := citations.filter (fun c => c.status == "VERIFIED")
      match runExternal (!verified.isEmpty) bib with
      | Except.error m => Except.error m
      | Except.ok b =>
        Except.ok { citations := citations, summary := mkSummary citations
                  , multiStyleBib := b }

/-- `parseAndVerifyCitations` of `geminiService.ts`: as the api version but
with the skeptic review pass between the loop and the bibliography.  The
whole body sits in one try/catch that rethrows, so any call failure
(including an unparseable review or bibliography response) fails the whole
request. -/
def servicePipelineE (extraction : Except String (List ExtractedItem))
    (env : Nat → Except String ItemEnv) (review : Except String (List ReviewItem))
    (bib : Except String MultiStyleBib) : Except String VerificationResult :=
  match extraction with
  | Except.error m => Except.error m
  | Except.ok items =>
    match mapProcessWith processItemService env 0 items with
    | Except.error m => Except.error m
    | Except.ok cs0 =>
      match review with
      | Except.error m => Except.error m
      | Except.ok reviews =>
        let citations := cs0.map (applyReview reviews)
        let verified := citations.filter (fun c => c.status == "VERIFIED")
        match runExternal (!verified.isEmpty) bib with
        | Except.error m => Except.error m
        | Except.ok b =>
          Except.ok { citations := citations, summary := mkSummary citations
                    , multiStyleBib := b }

/-- `parseAndVerifyCitations` of `part_001`. -/
def part001PipelineE (extraction : Except String (List ExtractedItem))
    (env : Nat → Except String ItemEnv001)
    (bib : Except String (List (String × String))) : Except String Result001 :=
  match extraction with
  | Except.error m => Except.error m
  | Except.ok items =>
    match mapProcessWith processItem001 env 0 items with
    | Except.error m => Except.error m
    | Except.ok citations =>
      let verified := citations.filter (fun c => c.status == "VERIFIED")
      match runExternal (!verified.isEmpty) bib with
      | Except.error m => Except.error m
      | Except.ok b =>
        Except.ok { citations := citations, summary := mkSummary001 citations
                  , multiStyleBib := b }

/-- HTTP responses of the `api/verify.ts` handler. -/
structure HttpResponse where
  status : Nat
  result : Option VerificationResult
  error : Option String
  deriving Repr, DecidableEq

/-- The HTTP handler of `api/verify.ts` lines 209–225. -/
def handler (method : String) (extraction : Except String (List ExtractedItem))
    (env : Nat → Except String ItemEnv) (bib : Except String MultiStyleBib) :
    HttpResponse :=
  if !(method == "POST") then
    { status := 405, result := none, error := some "Only POST allowed" }
  else
    match apiPipelineE extraction env bib with
    | Except.ok r => { status := 200, result := some r, error := none }
    | Except.error _ => { status := 500, result := none, error := some "Verification failed" }

/-! ## Spec-side predicates and sample inputs -/

/-- The summary invariant as the spec states it (§3/§8, claim C2): the
summary fields are counts over the final statuses of the citation
sequence. -/
def summaryInv (citations : List Citation) (s : Summary) : Prop :=
  s.total = citations.length
  ∧ s.verified = citations.countP (fun c => c.status == "VERIFIED")
  ∧ s.hallucinated = citations.countP (fun c => c.status == "HALLUCINATION")
  ∧ s.unverified =
      citations.countP
        (fun c => c.status == "UNVERIFIED" || c.status == "PARTIAL_MATCH")

/-- The effective identifier the api pipeline assigns to each extracted
item, in input order: the extractor's id when truthy, otherwise the
generated string of that iteration. -/
def effIds : List ExtractedItem → (Nat → ItemEnv) → Nat → List String
  | [], _, _ => []
  | item :: rest, env, i =>
    (if item.id == "" then (env i).genId else item.id) :: effIds rest env (i + 1)

/-- Sample extracted item with no identifier and no metadata. -/
def sampleItem : ExtractedItem :=
  { id := "c1", rawText := "Smith 2020", title := none, authors := none
  , year := none, doi := "" }

/-- A second sample item with a distinct id. -/
def sampleItem2 : ExtractedItem :=
  { id := "c2", rawText := "Jones 2021", title := none, authors := none
  , year := none, doi := "" }

/-- Per-item outcomes giving no evidence at all. -/
def sampleEnvU : ItemEnv :=
  { crossref := none, verifyText := "No evidence", groundingUris := [], genId := "g1" }

def sampleRec : CrossrefRecord :=
  { title := ["T"], author := none, created := some "2020", issued := some "2020" }

/-- Sample item carrying a DOI in its raw text. -/
def sampleItemV : ExtractedItem :=
  { id := "c1", rawText := "Smith (2020) found X [doi: 10.1000/xyz123]"
  , title := none, authors := none, year := none, doi := "" }

/-- Outcomes giving both evidence signals and no fabrication markers. -/
def sampleEnvV : ItemEnv :=
  { crossref := some sampleRec, verifyText := "Strong evidence exists"
  , groundingUris := [some "https://example.org/a"], genId := "g1" }

def sampleBib : MultiStyleBib := { apa := "a", mla := "m", chicago := "c", ieee := "i" }

/-- A bibliography response whose `apa` entry is the empty string (the
response schema requires the key but nothing forbids an empty value). -/
def sampleBibEmptyApa : MultiStyleBib :=
  { apa := "", mla := "m", chicago := "c", ieee := "i" }

/-- A review batch proposing the status string the review prompt itself
asks for (`UNVERIFIABLE`), which is not a `CitationStatus` enum value. -/
def sampleReviewU : List ReviewItem :=
  [{ id := "c1", newStatus := "UNVERIFIABLE", reasoning := "No second source" }]

def sampleEnv001 : ItemEnv001 :=
  { crossref := some sampleRec, verifyText := "real" }

def sampleItem001 : ExtractedItem :=
  { id := "p1", rawText := "Ref 10.1234/abcd", title := none, authors := none
  , year := none, doi := "" }

def emptySummary : Summary := { total := 0, verified := 0, hallucinated := 0, unverified := 0 }

def emptyResult : VerificationResult :=
  { citations := [], summary := emptySummary, multiStyleBib := none }

def emptyResult001 : Result001 :=
  { citations := [], summary := emptySummary, multiStyleBib := none }

def okValue : Except String VerificationResult → VerificationResult
  | Except.ok r => r
  | Except.error _ => emptyResult

def okValue001 : Except String Result001 → Result001
  | Except.ok r => r
  | Except.error _ => emptyResult001

/-- The api pipeline run on one evidence-free item. -/
def resultApiU : VerificationResult :=
  okValue (apiPipelineE (Except.ok [sampleItem]) (fun _ => Except.ok sampleEnvU)
    (Except.ok sampleBib))

/-- The api pipeline run on one doubly-corroborated item. -/
def resultApiV : VerificationResult :=
  okValue (apiPipelineE (Except.ok [sampleItemV]) (fun _ => Except.ok sampleEnvV)
    (Except.ok sampleBib))

/-- The api pipeline run on two items with distinct ids. -/
def resultApi2 : VerificationResult :=
  okValue (apiPipelineE (Except.ok [sampleItem, sampleItem2])
    (fun _ => Except.ok sampleEnvU) (Except.ok sampleBib))

/-- The service pipeline run with an empty (parsed, applicable-to-nothing)
review batch. -/
def resultSvc : VerificationResult :=
  okValue (servicePipelineE (Except.ok [sampleItemV]) (fun _ => Except.ok sampleEnvV)
    (Except.ok []) (Except.ok sampleBib))

/-- The `part_001` pipeline run on one registry-matched item. -/
def result001V : Result001 :=
  okValue001 (part001PipelineE (Except.ok [sampleItem001])
    (fun _ => Except.ok sampleEnv001) (Except.ok [("apa", "x")]))

/-- Sample citation for exercising the review-application policy. -/
def sampleCitation : Citation :=
  { id := "c1", rawText := "Smith 2020"
  , parsedMetadata := { title := none, authors := none, year := none, doi := "" }
  , status := "VERIFIED", confidenceScore := 0.99
  , verificationSource := "Crossref + Web Search"
  , sourceUrl := none, explanation := "Strong evidence exists" }

/-- A review proposing the status the citation already has. -/
def sampleReviewSame : ReviewItem :=
  { id := "c1", newStatus := "VERIFIED", reasoning := "Checked again" }

/-- A review proposing a different status. -/
def sampleReviewDiff : ReviewItem :=
  { id := "c1", newStatus := "UNVERIFIED", reasoning := "Not enough corroboration" }

/-! ## Helper lemmas -/

theorem grabWhile_append (p : Char → Bool) :
    ∀ l : List Char, (grabWhile p l).1 ++ (grabWhile p l).2 = l
  | [] => rfl
  | c :: cs => by
    simp only [grabWhile]
    by_cases h : p c
    · simp [h, grabWhile_append p cs]
    · simp [h]

theorem grabWhile_fst_all (p : Char → Bool) :
    ∀ l : List Char, ∀ x ∈ (grabWhile p l).1, p x = true
  | [] => by simp [grabWhile]
  | c :: cs => by
    simp only [grabWhile]
    by_cases h : p c
    · simp only [h, if_true, List.mem_cons]
      rintro x (rfl | hx)
      · exact h
      · exact grabWhile_fst_all p cs x hx
    · simp [h]

theorem grabWhile_exact (p : Char → Bool) :
    ∀ (ds z : List Char), (∀ x ∈ ds, p x = true) →
      (∀ c t, z = c :: t → p c = false) →
      grabWhile p (ds ++ z) = (ds, z)
  | [], [], _, _ => rfl
  | [], c :: t, _, hz => by
    simp [grabWhile, hz c t rfl]
  | d :: ds, z, hd, hz => by
    have hpd : p d = true := hd d (by simp)
    have ih := grabWhile_exact p ds z (fun x hx => hd x (by simp [hx])) hz
    simp [grabWhile, hpd, ih]

theorem startsWithL_append : ∀ m t : List Char, startsWithL m (m ++ t) = true
  | [], _ => rfl
  | p :: ps, t => by simp [startsWithL, startsWithL_append ps t]

theorem containsL_of_append (m t : List Char) : containsL m (m ++ t) = true := by
  cases m with
  | nil => cases t <;> simp [containsL, startsWithL]
  | cons a as =>
    have h := startsWithL_append (a :: as) t
    simp only [List.cons_append] at h
    simp [containsL, h]

theorem trimRev_some :
    ∀ (l : List Char) (n : Option Char) (out : List Char),
      trimRev l n = some out → (∃ d, l = d ++ out) ∧ out ≠ []
  | [], n, out => by simp [trimRev]
  | a :: as, n, out => by
    intro h
    rw [trimRev] at h
    split at h
    · cases h
      exact ⟨⟨[], rfl⟩, by simp⟩
    · obtain ⟨⟨d, hd⟩, hne⟩ := trimRev_some as (some a) out h
      exact ⟨⟨a :: d, by simp [hd]⟩, hne⟩

theorem trimToBoundary_some (sfx rest out : List Char) :
    trimToBoundary sfx rest = some out → (∃ t, sfx = out ++ t) ∧ out ≠ [] := by
  intro h
  unfold trimToBoundary at h
  obtain ⟨o, ho, rfl⟩ := Option.map_eq_some'.mp h
  obtain ⟨⟨d, hd⟩, hne⟩ := trimRev_some sfx.reverse rest.head? o ho
  constructor
  · refine ⟨d.reverse, ?_⟩
    have : sfx.reverse.reverse = (d ++ o).reverse := by rw [hd]
    simpa [List.reverse_append] using this
  · simpa using hne

theorem validGroups_cons (c : Char) (cs : List Char) :
    validGroups (c :: cs) = true → c = '.' := by
  intro h
  simp only [validGroups, Bool.and_eq_true, beq_iff_eq] at h
  exact h.1

theorem matchDoiAt_sound (w : Bool) (l m : List Char) :
    matchDoiAt w l = some m →
    doiGrammarCheckP suffixOkApi m = true ∧ ∃ t, l = m ++ t := by
  intro h
  rw [matchDoiAt.eq_def] at h
  split at h
  · rename_i rest
    split at h
    · exact absurd h (by simp)
    · simp only [] at h
      obtain ⟨ds, r1, hds1⟩ : ∃ a b, grabWhile Char.isDigit rest = (a, b) := ⟨_, _, rfl⟩
      simp only [hds1] at h
      split at h
      · exact absurd h (by simp)
      · rename_i hlen
        obtain ⟨g, r2, hg1⟩ :
            ∃ a b, grabWhile (fun c => !(c == '/')) r1 = (a, b) := ⟨_, _, rfl⟩
        simp only [hg1] at h
        split at h
        · rename_i r3
          split at h
          · exact absurd h (by simp)
          · rename_i hvg
            split at h
            · rename_i sfx2 heq3
              injection h with hm
              subst hm
              have hvg2 : validGroups g = true := by
                revert hvg; cases validGroups g <;> simp
              have hlen2 : 4 ≤ ds.length := Nat.not_lt.mp hlen
              obtain ⟨⟨t1, ht1⟩, hne⟩ :=
                trimToBoundary_some (grabWhile suffixOkApi r3).1
                  (grabWhile suffixOkApi r3).2 sfx2 heq3
              have hsfx_all : ∀ x ∈ sfx2, suffixOkApi x = true := by
                intro x hx
                have hx2 : x ∈ (grabWhile suffixOkApi r3).1 := by
                  rw [ht1]; exact List.mem_append_left _ hx
                exact grabWhile_fst_all suffixOkApi r3 x hx2
              have hds_all : ∀ x ∈ ds, Char.isDigit x = true := by
                intro x hx
                have h5 := grabWhile_fst_all Char.isDigit rest
                rw [hds1] at h5
                exact h5 x hx
              have hg_all : ∀ x ∈ g, (!(x == '/')) = true := by
                intro x hx
                have h5 := grabWhile_fst_all (fun c => !(c == '/')) r1
                rw [hg1] at h5
                exact h5 x hx
              constructor
              · have hstepA : grabWhile Char.isDigit (ds ++ (g ++ '/' :: sfx2))
                    = (ds, g ++ '/' :: sfx2) := by
                  apply grabWhile_exact _ _ _ hds_all
                  intro c t hct
                  cases g with
                  | nil =>
                    simp at hct
                    rw [← hct.1]
                    decide
                  | cons gc gt =>
                    simp at hct
                    have hgc : gc = '.' := validGroups_cons gc gt hvg2
                    rw [← hct.1, hgc]
                    decide
                have hstepB : grabWhile (fun c => !(c == '/')) (g ++ '/' :: sfx2)
                    = (g, '/' :: sfx2) := by
                  apply grabWhile_exact _ _ _ hg_all
                  intro c t hct
                  simp at hct
                  rw [← hct.1]
                  decide
                rw [doiGrammarCheckP.eq_def]
                simp only [List.append_assoc, List.cons_append]
                simp only [hstepA, hstepB]
                simp only [hvg2, List.all_eq_true, List.isEmpty_iff, Bool.and_eq_true,
                  decide_eq_true_eq]
                refine ⟨hlen2, ⟨trivial, ?_⟩, hsfx_all⟩
                cases sfx2 with
                | nil => exact absurd rfl hne
                | cons a as => rfl
              · have e1 : ds ++ r1 = rest := by
                  have e := grabWhile_append Char.isDigit rest
                  rw [hds1] at e; exact e
                have e2 : g ++ '/' :: r3 = r1 := by
                  have e := grabWhile_append (fun c => !(c == '/')) r1
                  rw [hg1] at e; exact e
                have e3 : (grabWhile suffixOkApi r3).1 ++ (grabWhile suffixOkApi r3).2 = r3 :=
                  grabWhile_append suffixOkApi r3
                refine ⟨t1 ++ (grabWhile suffixOkApi r3).2, ?_⟩
                have h7 : '/' :: r3
                    = '/' :: ((grabWhile suffixOkApi r3).1 ++ (grabWhile suffixOkApi r3).2) := by
                  rw [e3]
                rw [← e1, ← e2, h7, ht1]
                simp [List.append_assoc]
            · exact absurd h (by simp)
        · exact absurd h (by simp)
  · exact absurd h (by simp)

theorem findDoiAux_sound :
    ∀ (w : Bool) (l m : List Char),
      findDoiAux w l = some m →
      doiGrammarCheckP suffixOkApi m = true ∧ containsL m l = true
  | w, [], m => by simp [findDoiAux]
  | w, c :: cs, m => by
    intro h
    rw [findDoiAux] at h
    cases hm : matchDoiAt w (c :: cs) with
    | some m0 =>
      rw [hm] at h
      injection h with h2
      subst h2
      obtain ⟨hg, t, ht⟩ := matchDoiAt_sound w (c :: cs) m0 hm
      refine ⟨hg, ?_⟩
      rw [ht]
      exact containsL_of_append _ _
    | none =>
      rw [hm] at h
      obtain ⟨hg, hc⟩ := findDoiAux_sound (isWordChar c) cs m h
      refine ⟨hg, ?_⟩
      simp [containsL, hc]

/-- C8 (amended): identifier extraction is a pure function of the raw text
and the optional known identifier; it returns the known identifier when one
is present; otherwise it scans left to right and returns the first match of
the code's DOI pattern — `10.` plus at least four digits, optional
dot-separated digit sub-segments, a slash, then one or more characters that
are neither whitespace nor one of `"` `&` `'` `<` `>`, the whole match
starting and ending at a word boundary — or the absent identifier when the
pattern does not occur; every returned match fits that grammar and occurs
in the text, and for text containing `10.1234/abcd.5` as a delimited token
it returns exactly that substring. -/
theorem extractDoi_amended :
    (∀ d raw, d ≠ "" → extractDoi d raw = d)
    ∧ (∀ raw m, doiFirstMatch raw = some m →
        doiGrammarCheckP suffixOkApi m.toList = true ∧ containsSub raw m = true)
    ∧ extractDoi "" "See 10.1234/abcd.5 for details" = "10.1234/abcd.5"
    ∧ extractDoi "" "no identifier here" = "" := by
  refine ⟨?_, ?_, rfl, rfl⟩
  · intro d raw hd
    rw [extractDoi, if_neg (by simp [hd])]
  · intro raw m h
    unfold doiFirstMatch at h
    obtain ⟨m0, hm0, rfl⟩ := Option.map_eq_some'.mp h
    obtain ⟨hg, hc⟩ := findDoiAux_sound false raw.toList m0 hm0
    exact ⟨hg, hc⟩

/-- C8 (counterexample): the spec's grammar has no word-boundary
requirement, so on `A10.1234/abc` it finds the substring `10.1234/abc`,
while the code's regex — whose match must start at a word boundary (`\b`)
— finds nothing and extraction returns no identifier. -/
theorem extractDoi_counterexample :
    extractDoi "" "A10.1234/abc" = ""
    ∧ doiClaimGrammar (String.toList "10.1234/abc") = true
    ∧ containsSub "A10.1234/abc" "10.1234/abc" = true :=
  ⟨rfl, rfl, rfl⟩

/-- Witness for `extractDoi_amended` at concrete inputs. -/
theorem extractDoi_amended_witness :
    extractDoi "10.9999/known" "some text" = "10.9999/known"
    ∧ (doiGrammarCheckP suffixOkApi (String.toList "10.1234/abcd.5") = true
       ∧ containsSub "See 10.1234/abcd.5 for details" "10.1234/abcd.5" = true) :=
  ⟨extractDoi_amended.1 "10.9999/known" "some text" (by decide),
   extractDoi_amended.2.1 "See 10.1234/abcd.5 for details" "10.1234/abcd.5" rfl⟩

/-- C1 (amended): the evidence fusion of `api/verify.ts` and of
`geminiService.ts` is — output-wise — a pure function of the three booleans
(registryMatch, groundingMatch, fabricationSignal) and follows the spec's
eight-case table exactly; the `geminiService.ts` variant additionally reads
a "verified"-keyword flag that never changes the result.  The fusion of the
`unnamed/part_001` variant does not follow the table (see the
counterexample). -/
theorem fuse_matches_spec_table :
    ∀ registryMatch groundingMatch fabricationSignal verifiedWord : Bool,
      fuse registryMatch groundingMatch fabricationSignal
          = fuseSpec registryMatch groundingMatch fabricationSignal
        ∧ fuseService registryMatch groundingMatch verifiedWord fabricationSignal
          = fuseSpec registryMatch groundingMatch fabricationSignal := by
  intro rg gd fb vw
  cases rg <;> cases gd <;> cases fb <;> cases vw <;> exact ⟨rfl, rfl⟩

/-- C1 (counterexample): in `part_001`, a lone registry match with no
fabrication marker yields `(VERIFIED, 0.98)`, where the spec's table
demands `(PARTIAL_MATCH, 0.75)` for a single signal — so the claim's
eight-case table does not hold for that variant's fusion step. -/
theorem fusePart001_violates_table :
    fusePart001 true false false = ("VERIFIED", (0.98 : ℚ))
    ∧ fuseSpec true false false = ("PARTIAL_MATCH", (0.75 : ℚ))
    ∧ (((fusePart001 true false false).1 == (fuseSpec true false false).1) = false) :=
  ⟨rfl, rfl, rfl⟩

/-- Inversion for the api pipeline: a returned result is exactly the
assembled record over the per-item loop's output. -/
theorem apiPipelineE_ok (ex : Except String (List ExtractedItem))
    (env : Nat → Except String ItemEnv) (bib : Except String MultiStyleBib)
    (r : VerificationResult) :
    apiPipelineE ex env bib = Except.ok r →
    ∃ items citations b,
      ex = Except.ok items
      ∧ mapProcessWith processItemApi env 0 items = Except.ok citations
      ∧ runExternal (!(citations.filter (fun c => c.status == "VERIFIED")).isEmpty) bib
          = Except.ok b
      ∧ r = { citations := citations, summary := mkSummary citations
            , multiStyleBib := b } := by
  intro h
  rw [apiPipelineE.eq_def] at h
  split at h
  · exact absurd h (by simp)
  · rename_i items
    split at h
    · exact absurd h (by simp)
    · rename_i citations hmap
      simp only [] at h
      split at h
      · exact absurd h (by simp)
      · rename_i b hrun
        injection h with h2
        exact ⟨items, citations, b, rfl, hmap, hrun, h2.symm⟩

/-- Inversion for the service pipeline. -/
theorem servicePipelineE_ok (ex : Except String (List ExtractedItem))
    (env : Nat → Except String ItemEnv) (review : Except String (List ReviewItem))
    (bib : Except String MultiStyleBib) (r : VerificationResult) :
    servicePipelineE ex env review bib = Except.ok r →
    ∃ items cs0 reviews b,
      ex = Except.ok items
      ∧ mapProcessWith processItemService env 0 items = Except.ok cs0
      ∧ review = Except.ok reviews
      ∧ runExternal
          (!((cs0.map (applyReview reviews)).filter
              (fun c => c.status == "VERIFIED")).isEmpty) bib = Except.ok b
      ∧ r = { citations := cs0.map (applyReview reviews)
            , summary := mkSummary (cs0.map (applyReview reviews))
            , multiStyleBib := b } := by
  intro h
  rw [servicePipelineE.eq_def] at h
  split at h
  · exact absurd h (by simp)
  · rename_i items
    split at h
    · exact absurd h (by simp)
    · rename_i cs0 hmap
      split at h
      · exact absurd h (by simp)
      · rename_i reviews
        simp only [] at h
        split at h
        · exact absurd h (by simp)
        · rename_i b hrun
          injection h with h2
          exact ⟨items, cs0, reviews, b, rfl, hmap, rfl, hrun, h2.symm⟩

/-- Inversion for the `part_001` pipeline. -/
theorem part001PipelineE_ok (ex : Except String (List ExtractedItem))
    (env : Nat → Except String ItemEnv001)
    (bib : Except String (List (String × String))) (r : Result001) :
    part001PipelineE ex env bib = Except.ok r →
    ∃ items citations b,
      ex = Except.ok items
      ∧ mapProcessWith processItem001 env 0 items = Except.ok citations
      ∧ runExternal (!(citations.filter (fun c => c.status == "VERIFIED")).isEmpty) bib
          = Except.ok b
      ∧ r = { citations := citations, summary := mkSummary001 citations
            , multiStyleBib := b } := by
  intro h
  rw [part001PipelineE.eq_def] at h
  split at h
  · exact absurd h (by simp)
  · rename_i items
    split at h
    · exact absurd h (by simp)
    · rename_i citations hmap
      simp only [] at h
      split at h
      · exact absurd h (by simp)
      · rename_i b hrun
        injection h with h2
        exact ⟨items, citations, b, rfl, hmap, hrun, h2.symm⟩

/-- Counting with predicates that agree on the members of a list. -/
theorem countP_agree {α : Type} (p q : α → Bool) :
    ∀ l : List α, (∀ a ∈ l, p a = q a) → l.countP p = l.countP q
  | [], _ => rfl
  | a :: l, h => by
    have ha := h a (by simp)
    have ih := countP_agree p q l (fun x hx => h x (by simp [hx]))
    simp [List.countP_cons, ha, ih]

/-- The assembled summary of `api/verify.ts`/`geminiService.ts` satisfies
the spec's count invariant. -/
theorem mkSummary_inv (cs : List Citation) : summaryInv cs (mkSummary cs) := by
  refine ⟨rfl, ?_, ?_, ?_⟩ <;>
    simp [mkSummary, summaryInv, List.countP_eq_length_filter]

/-- The `part_001` summary satisfies the spec's count invariant provided no
citation carries the `PARTIAL_MATCH` status (its `unverified` field counts
only `UNVERIFIED`). -/
theorem mkSummary001_inv (cs : List Citation)
    (h : ∀ c ∈ cs, c.status ≠ "PARTIAL_MATCH") : summaryInv cs (mkSummary001 cs) := by
  have hagree : cs.countP
      (fun c => c.status == "UNVERIFIED" || c.status == "PARTIAL_MATCH")
      = cs.countP (fun c => c.status == "UNVERIFIED") := by
    apply countP_agree
    intro c hc
    have := h c hc
    simp [this]
  refine ⟨rfl, ?_, ?_, ?_⟩
  · simp [mkSummary001, summaryInv, List.countP_eq_length_filter]
  · simp [mkSummary001, summaryInv, List.countP_eq_length_filter]
  · show (cs.filter (fun c => c.status == "UNVERIFIED")).length
        = cs.countP (fun c => c.status == "UNVERIFIED" || c.status == "PARTIAL_MATCH")
    rw [hagree, List.countP_eq_length_filter]

/-- Every citation produced by the per-item loop is the image of some
extracted item under the per-item processing function. -/
theorem mapProcessWith_ok_mem {ε : Type} (f : ExtractedItem → ε → Citation)
    (env : Nat → Except String ε) :
    ∀ (n : Nat) (items : List ExtractedItem) (cs : List Citation),
      mapProcessWith f env n items = Except.ok cs →
      ∀ c ∈ cs, ∃ item e, c = f item e := by
  intro n items
  induction items generalizing n with
  | nil =>
    intro cs h c hc
    rw [mapProcessWith] at h
    injection h with h2
    subst h2
    simp at hc
  | cons item rest ih =>
    intro cs h c hc
    rw [mapProcessWith] at h
    split at h
    · exact absurd h (by simp)
    · rename_i e heq
      split at h
      · exact absurd h (by simp)
      · rename_i cs2 hmap2
        injection h with h2
        subst h2
        rcases List.mem_cons.mp hc with rfl | hc2
        · exact ⟨item, e, rfl⟩
        · exact ih (n + 1) cs2 hmap2 c hc2

/-- The `part_001` fusion only ever produces three statuses. -/
theorem fusePart001_status_cases (a b c : Bool) :
    (fusePart001 a b c).1 = "HALLUCINATION" ∨ (fusePart001 a b c).1 = "VERIFIED"
      ∨ (fusePart001 a b c).1 = "UNVERIFIED" := by
  cases a <;> cases b <;> cases c <;> simp [fusePart001]

/-- `part_001` never assigns `PARTIAL_MATCH`. -/
theorem processItem001_status (item : ExtractedItem) (e : ItemEnv001) :
    (processItem001 item e).status ≠ "PARTIAL_MATCH" := by
  show (fusePart001 _ _ _).1 ≠ "PARTIAL_MATCH"
  rcases fusePart001_status_cases _ _ _ with h | h | h <;> rw [h] <;> decide

/-- C2: for every VerificationResult returned by any of the three pipeline
variants, the summary is the pure projection of the citation sequence's
final statuses: `total` is the number of citations, `verified` the count of
`VERIFIED`, `hallucinated` the count of `HALLUCINATION`, and `unverified`
the count of `UNVERIFIED` or `PARTIAL_MATCH` (in `part_001` the code counts
only `UNVERIFIED`, but that variant never assigns `PARTIAL_MATCH`, so the
claimed invariant still holds of every returned result). -/
theorem summary_is_projection :
    (∀ ex env bib r, apiPipelineE ex env bib = Except.ok r →
        summaryInv r.citations r.summary)
    ∧ (∀ ex env review bib r, servicePipelineE ex env review bib = Except.ok r →
        summaryInv r.citations r.summary)
    ∧ (∀ ex env bib r, part001PipelineE ex env bib = Except.ok r →
        summaryInv r.citations r.summary) := by
  refine ⟨?_, ?_, ?_⟩
  · intro ex env bib r h
    obtain ⟨items, cs, b, rfl, hmap, hrun, rfl⟩ := apiPipelineE_ok ex env bib r h
    exact mkSummary_inv cs
  · intro ex env review bib r h
    obtain ⟨items, cs0, reviews, b, rfl, hmap, rfl, hrun, rfl⟩ :=
      servicePipelineE_ok ex env review bib r h
    exact mkSummary_inv (cs0.map (applyReview reviews))
  · intro ex env bib r h
    obtain ⟨items, cs, b, rfl, hmap, hrun, rfl⟩ := part001PipelineE_ok ex env bib r h
    refine mkSummary001_inv cs ?_
    intro c hc
    obtain ⟨item, e, rfl⟩ := mapProcessWith_ok_mem processItem001 env 0 items cs hmap c hc
    exact processItem001_status item e

/-- Witness for `summary_is_projection` at concrete runs of all three
pipelines. -/
theorem summary_is_projection_witness :
    summaryInv resultApiU.citations resultApiU.summary
    ∧ summaryInv resultSvc.citations resultSvc.summary
    ∧ summaryInv result001V.citations result001V.summary :=
  ⟨summary_is_projection.1 (Except.ok [sampleItem]) (fun _ => Except.ok sampleEnvU)
      (Except.ok sampleBib) resultApiU rfl,
   summary_is_projection.2.1 (Except.ok [sampleItemV]) (fun _ => Except.ok sampleEnvV)
      (Except.ok []) (Except.ok sampleBib) resultSvc rfl,
   summary_is_projection.2.2 (Except.ok [sampleItem001]) (fun _ => Except.ok sampleEnv001)
      (Except.ok [("apa", "x")]) result001V rfl⟩

/-- C3 (code bug, evaluated at the failing input): the skeptic review's
`newStatus` string is applied by an unchecked cast, and the review prompt
itself instructs the model to downgrade `VERIFIED` to `UNVERIFIABLE` — a
value outside the `CitationStatus` enum.  On a run whose review proposes
`UNVERIFIABLE` for a `VERIFIED` citation, the returned result carries the
status `UNVERIFIABLE`, which is none of the four claimed values (nor even
`PENDING`). -/
theorem review_unverifiable_passthrough :
    (servicePipelineE (Except.ok [sampleItemV]) (fun _ => Except.ok sampleEnvV)
        (Except.ok sampleReviewU) (Except.ok sampleBib)).toOption.map
        (fun r => r.citations.map (fun c => c.status)) = some ["UNVERIFIABLE"]
    ∧ (citationStatusValues.contains "UNVERIFIABLE") = false
    ∧ ((["VERIFIED", "PARTIAL_MATCH", "UNVERIFIED", "HALLUCINATION"] : List String).contains
        "UNVERIFIABLE") = false :=
  ⟨rfl, rfl, rfl⟩

/-- C4: the review-application step applies a proposal only when it
differs from the current status; when applied, the reasoning is appended
after the existing explanation (which is therefore preserved as a prefix);
a citation whose id does not appear in the review output is returned
unchanged. -/
theorem applyReview_policy (reviews : List ReviewItem) (c : Citation) :
    ((∀ rv ∈ reviews, rv.id ≠ c.id) → applyReview reviews c = c)
    ∧ (∀ review, reviews.find? (fun rv => rv.id == c.id) = some review →
        review.newStatus = c.status → applyReview reviews c = c)
    ∧ (∀ review, reviews.find? (fun rv => rv.id == c.id) = some review →
        review.newStatus ≠ c.status →
          (applyReview reviews c).status = review.newStatus
          ∧ (applyReview reviews c).explanation
              = c.explanation ++ "\n\n[Skeptic Review]: " ++ review.reasoning
          ∧ ∃ t, (applyReview reviews c).explanation = c.explanation ++ t) := by
  refine ⟨?_, ?_, ?_⟩
  · intro hnone
    have hfind : reviews.find? (fun rv => rv.id == c.id) = none := by
      rw [List.find?_eq_none]
      intro x hx
      simp [hnone x hx]
    rw [applyReview, hfind]
  · intro review hfind heq
    rw [applyReview, hfind]
    simp [heq]
  · intro review hfind hne
    rw [applyReview, hfind]
    simp only []
    rw [if_neg (by simp [hne])]
    exact ⟨rfl, rfl,
      ⟨"\n\n[Skeptic Review]: " ++ review.reasoning, by rw [String.append_assoc]⟩⟩

/-- C5 (amended): when the skeptic review call fails (or its output cannot
be parsed), the service pipeline never returns a VerificationResult — the
exception propagates and the whole request fails; there is no per-step
recovery. -/
theorem service_review_error_never_ok :
    ∀ ex env bib msg,
      exceptIsOk (servicePipelineE ex env (Except.error msg) bib) = false := by
  intro ex env bib msg
  cases h : servicePipelineE ex env (Except.error msg) bib with
  | error m => rfl
  | ok r =>
    obtain ⟨items, cs0, reviews, b, hex, hmap, hrev, hrun, hr⟩ :=
      servicePipelineE_ok ex env (Except.error msg) bib r h
    exact absurd hrev (by simp)

/-- C5 (counterexample): a failing review call makes the whole pipeline
return that error rather than a result with pre-review statuses, and a
failing bibliography call (with a VERIFIED citation present) likewise
fails the request instead of omitting the bibliography. -/
theorem service_failures_counterexample :
    servicePipelineE (Except.ok [sampleItem]) (fun _ => Except.ok sampleEnvU)
        (Except.error "review unavailable") (Except.ok sampleBib)
      = Except.error "review unavailable"
    ∧ servicePipelineE (Except.ok [sampleItemV]) (fun _ => Except.ok sampleEnvV)
        (Except.ok []) (Except.error "bibliography failed")
      = Except.error "bibliography failed" :=
  ⟨rfl, rfl⟩

/-- A conditional external call succeeds with a value iff it was needed. -/
theorem runExternal_isSome {α : Type} (needed : Bool) (call : Except String α)
    (b : Option α) : runExternal needed call = Except.ok b → b.isSome = needed := by
  intro h
  rw [runExternal.eq_def] at h
  split at h
  · rename_i hn
    split at h
    · injection h with h2
      subst h2
      simp [hn]
    · exact absurd h (by simp)
  · rename_i hn
    injection h with h2
    subst h2
    simp at hn
    simp [hn]

/-- C6 (amended): in every returned result of each pipeline variant,
`multiStyleBib` is present iff `summary.verified > 0`.  (The content of the
bibliography is whatever the model returned: the api/service request
schemas require the four keys apa/mla/chicago/ieee as strings, but nothing
checks non-emptiness, and `part_001` requests no schema at all.) -/
theorem bib_presence_iff :
    (∀ ex env bib r, apiPipelineE ex env bib = Except.ok r →
        (r.multiStyleBib.isSome = true ↔ 0 < r.summary.verified))
    ∧ (∀ ex env review bib r, servicePipelineE ex env review bib = Except.ok r →
        (r.multiStyleBib.isSome = true ↔ 0 < r.summary.verified))
    ∧ (∀ ex env bib r, part001PipelineE ex env bib = Except.ok r →
        (r.multiStyleBib.isSome = true ↔ 0 < r.summary.verified)) := by
  refine ⟨?_, ?_, ?_⟩
  · intro ex env bib r h
    obtain ⟨items, cs, b, rfl, hmap, hrun, rfl⟩ := apiPipelineE_ok ex env bib r h
    have hb := runExternal_isSome _ _ _ hrun
    show b.isSome = true ↔ 0 < (cs.filter (fun c => c.status == "VERIFIED")).length
    rw [hb]
    cases hfe : cs.filter (fun c => c.status == "VERIFIED") with
    | nil => simp
    | cons a as => simp
  · intro ex env review bib r h
    obtain ⟨items, cs0, reviews, b, rfl, hmap, rfl, hrun, rfl⟩ :=
      servicePipelineE_ok ex env review bib r h
    have hb := runExternal_isSome _ _ _ hrun
    show b.isSome = true
        ↔ 0 < ((cs0.map (applyReview reviews)).filter
            (fun c => c.status == "VERIFIED")).length
    rw [hb]
    cases hfe : (cs0.map (applyReview reviews)).filter (fun c => c.status == "VERIFIED") with
    | nil => simp
    | cons a as => simp
  · intro ex env bib r h
    obtain ⟨items, cs, b, rfl, hmap, hrun, rfl⟩ := part001PipelineE_ok ex env bib r h
    have hb := runExternal_isSome _ _ _ hrun
    show b.isSome = true ↔ 0 < (cs.filter (fun c => c.status == "VERIFIED")).length
    rw [hb]
    cases hfe : cs.filter (fun c => c.status == "VERIFIED") with
    | nil => simp
    | cons a as => simp

/-- Witness for `bib_presence_iff` at concrete runs. -/
theorem bib_presence_iff_witness :
    (resultApiV.multiStyleBib.isSome = true ↔ 0 < resultApiV.summary.verified)
    ∧ (resultSvc.multiStyleBib.isSome = true ↔ 0 < resultSvc.summary.verified)
    ∧ (result001V.multiStyleBib.isSome = true ↔ 0 < result001V.summary.verified) :=
  ⟨bib_presence_iff.1 (Except.ok [sampleItemV]) (fun _ => Except.ok sampleEnvV)
      (Except.ok sampleBib) resultApiV rfl,
   bib_presence_iff.2.1 (Except.ok [sampleItemV]) (fun _ => Except.ok sampleEnvV)
      (Except.ok []) (Except.ok sampleBib) resultSvc rfl,
   bib_presence_iff.2.2 (Except.ok [sampleItem001]) (fun _ => Except.ok sampleEnv001)
      (Except.ok [("apa", "x")]) result001V rfl⟩

/-- C6 (counterexample): a bibliography response with an empty `apa` string
passes straight through: the returned result has `summary.verified = 1`,
a present `multiStyleBib`, and `apa = ""`, contradicting the claim that
every key maps to a non-empty string. -/
theorem bib_empty_string_counterexample :
    (apiPipelineE (Except.ok [sampleItemV]) (fun _ => Except.ok sampleEnvV)
        (Except.ok sampleBibEmptyApa)).toOption.map
      (fun r => (r.summary.verified, r.multiStyleBib.map (fun b => b.apa)))
      = some (1, some "") :=
  rfl

/-- C7: a failed extraction call (malformed or empty response, whose
`JSON.parse` throws) is fatal to the whole request — the handler returns a
single HTTP 500 with the error message "Verification failed" and no
citations; in general every handler response either is a 200 carrying the
complete VerificationResult of the pipeline, or carries no result and some
error message — never partial results. -/
theorem handler_contract :
    (∀ env bib msg,
        handler "POST" (Except.error msg) env bib
          = { status := 500, result := none, error := some "Verification failed" })
    ∧ (∀ method ex env bib,
        (∃ r, handler method ex env bib
              = { status := 200, result := some r, error := none }
            ∧ apiPipelineE ex env bib = Except.ok r)
        ∨ ((handler method ex env bib).result = none
            ∧ (handler method ex env bib).error.isSome = true)) := by
  constructor
  · intro env bib msg
    rfl
  · intro method ex env bib
    rw [handler]
    split
    · right
      exact ⟨rfl, rfl⟩
    · cases h : apiPipelineE ex env bib with
      | ok r => exact Or.inl ⟨r, rfl, rfl⟩
      | error m => exact Or.inr ⟨rfl, rfl⟩

/-- The ids of the citations produced by the api per-item loop are exactly
the effective per-item ids, in input order. -/
theorem mapProcess_api_ids :
    ∀ (items : List ExtractedItem) (env : Nat → ItemEnv) (n : Nat) (cs : List Citation),
      mapProcessWith processItemApi (fun i => Except.ok (env i)) n items = Except.ok cs →
      cs.map (fun c => c.id) = effIds items env n := by
  intro items
  induction items with
  | nil =>
    intro env n cs h
    rw [mapProcessWith] at h
    injection h with h2
    subst h2
    rfl
  | cons item rest ih =>
    intro env n cs h
    rw [mapProcessWith] at h
    simp only [] at h
    split at h
    · exact absurd h (by simp)
    · rename_i cs2 hmap2
      injection h with h2
      subst h2
      simp only [List.map_cons]
      rw [effIds]
      congr 1
      exact ih env (n + 1) cs2 hmap2

/-- The ids of the citations produced by the service per-item loop are
exactly the effective per-item ids, in input order (the id logic of
`geminiService.ts` line 124 is the same `item.id || generated` fallback as
the api variant's). -/
theorem mapProcess_service_ids :
    ∀ (items : List ExtractedItem) (env : Nat → ItemEnv) (n : Nat) (cs : List Citation),
      mapProcessWith processItemService (fun i => Except.ok (env i)) n items
          = Except.ok cs →
      cs.map (fun c => c.id) = effIds items env n := by
  intro items
  induction items with
  | nil =>
    intro env n cs h
    rw [mapProcessWith] at h
    injection h with h2
    subst h2
    rfl
  | cons item rest ih =>
    intro env n cs h
    rw [mapProcessWith] at h
    simp only [] at h
    split at h
    · exact absurd h (by simp)
    · rename_i cs2 hmap2
      injection h with h2
      subst h2
      simp only [List.map_cons]
      rw [effIds]
      congr 1
      exact ih env (n + 1) cs2 hmap2

/-- The ids of the citations produced by the `part_001` loop are exactly
the extractor-supplied ids, in input order (`part_001` line 120 uses
`item.id` with no generated fallback). -/
theorem mapProcess_001_ids :
    ∀ (items : List ExtractedItem) (env : Nat → ItemEnv001) (n : Nat) (cs : List Citation),
      mapProcessWith processItem001 (fun i => Except.ok (env i)) n items
          = Except.ok cs →
      cs.map (fun c => c.id) = items.map (fun item => item.id) := by
  intro items
  induction items with
  | nil =>
    intro env n cs h
    rw [mapProcessWith] at h
    injection h with h2
    subst h2
    rfl
  | cons item rest ih =>
    intro env n cs h
    rw [mapProcessWith] at h
    simp only [] at h
    split at h
    · exact absurd h (by simp)
    · rename_i cs2 hmap2
      injection h with h2
      subst h2
      simp only [List.map_cons]
      congr 1
      exact ih env (n + 1) cs2 hmap2

/-- The review application never changes a citation's id (both branches of
the `{...c, status, explanation}` update keep it). -/
theorem applyReview_preserves_id (reviews : List ReviewItem) (c : Citation) :
    (applyReview reviews c).id = c.id := by
  rw [applyReview]
  split
  · split
    · rfl
    · rfl
  · rfl

/-- Mapping the review application over a batch leaves the id sequence
unchanged. -/
theorem map_applyReview_ids (reviews : List ReviewItem) :
    ∀ cs : List Citation,
      (cs.map (applyReview reviews)).map (fun c => c.id) = cs.map (fun c => c.id)
  | [] => rfl
  | a :: l => by
    simp [applyReview_preserves_id, map_applyReview_ids reviews l]

/-- C9 (amended): every citation of an api- or service-pipeline run has an
identifier — the extractor's id when non-empty, otherwise the generated
string of that iteration — and the output ids are exactly these effective
ids in input order (the review pass never changes ids); in `part_001` the
output ids are exactly the extractor-supplied ids, unchanged.  In every
variant the ids are pairwise distinct iff those per-item ids are, since no
pipeline performs any deduplication. -/
theorem citation_ids_amended :
    (∀ (items : List ExtractedItem) (env : Nat → ItemEnv)
        (bib : Except String MultiStyleBib) (r : VerificationResult),
      apiPipelineE (Except.ok items) (fun i => Except.ok (env i)) bib = Except.ok r →
      r.citations.map (fun c => c.id) = effIds items env 0
      ∧ ((r.citations.map (fun c => c.id)).Nodup ↔ (effIds items env 0).Nodup))
    ∧ (∀ (items : List ExtractedItem) (env : Nat → ItemEnv)
        (review : Except String (List ReviewItem)) (bib : Except String MultiStyleBib)
        (r : VerificationResult),
      servicePipelineE (Except.ok items) (fun i => Except.ok (env i)) review bib
          = Except.ok r →
      r.citations.map (fun c => c.id) = effIds items env 0
      ∧ ((r.citations.map (fun c => c.id)).Nodup ↔ (effIds items env 0).Nodup))
    ∧ (∀ (items : List ExtractedItem) (env : Nat → ItemEnv001)
        (bib : Except String (List (String × String))) (r : Result001),
      part001PipelineE (Except.ok items) (fun i => Except.ok (env i)) bib = Except.ok r →
      r.citations.map (fun c => c.id) = items.map (fun item => item.id)
      ∧ ((r.citations.map (fun c => c.id)).Nodup
          ↔ (items.map (fun item => item.id)).Nodup)) := by
  refine ⟨?_, ?_, ?_⟩
  · intro items env bib r h
    obtain ⟨items2, cs, b, hex, hmap, hrun, rfl⟩ := apiPipelineE_ok _ _ _ r h
    injection hex with hex2
    subst hex2
    have hids := mapProcess_api_ids items env 0 cs hmap
    exact ⟨hids, by rw [hids]⟩
  · intro items env review bib r h
    obtain ⟨items2, cs0, reviews, b, hex, hmap, hrev, hrun, rfl⟩ :=
      servicePipelineE_ok _ _ _ _ r h
    injection hex with hex2
    subst hex2
    have hids0 := mapProcess_service_ids items env 0 cs0 hmap
    have hids := (map_applyReview_ids reviews cs0).trans hids0
    exact ⟨hids, by rw [hids]⟩
  · intro items env bib r h
    obtain ⟨items2, cs, b, hex, hmap, hrun, rfl⟩ := part001PipelineE_ok _ _ _ r h
    injection hex with hex2
    subst hex2
    have hids := mapProcess_001_ids items env 0 cs hmap
    exact ⟨hids, by rw [hids]⟩

/-- Witness for `citation_ids_amended` at concrete runs of all three
pipelines. -/
theorem citation_ids_amended_witness :
    resultApi2.citations.map (fun c => c.id)
      = effIds [sampleItem, sampleItem2] (fun _ => sampleEnvU) 0
    ∧ resultSvc.citations.map (fun c => c.id)
      = effIds [sampleItemV] (fun _ => sampleEnvV) 0
    ∧ result001V.citations.map (fun c => c.id)
      = [sampleItem001].map (fun item => item.id) :=
  ⟨(citation_ids_amended.1 [sampleItem, sampleItem2] (fun _ => sampleEnvU)
      (Except.ok sampleBib) resultApi2 rfl).1,
   (citation_ids_amended.2.1 [sampleItemV] (fun _ => sampleEnvV) (Except.ok [])
      (Except.ok sampleBib) resultSvc rfl).1,
   (citation_ids_amended.2.2 [sampleItem001] (fun _ => sampleEnv001)
      (Except.ok [("apa", "x")]) result001V rfl).1⟩

/-- C9 (counterexample): when the extraction output reuses an id, both
citations carry it — the run's identifiers are not pairwise unique. -/
theorem duplicate_ids_counterexample :
    (apiPipelineE (Except.ok [sampleItem, sampleItem]) (fun _ => Except.ok sampleEnvU)
        (Except.ok sampleBib)).toOption.map (fun r => r.citations.map (fun c => c.id))
      = some ["c1", "c1"]
    ∧ decide (List.Nodup (["c1", "c1"] : List String)) = false :=
  ⟨rfl, by decide⟩

/-- C10: the review step changes at most the status and explanation
fields: id, rawText, parsedMetadata, confidenceScore (in particular a
pre-review 0.99), sourceUrl and verificationSource are all unchanged. -/
theorem applyReview_frame (reviews : List ReviewItem) (c : Citation) :
    (applyReview reviews c).id = c.id
    ∧ (applyReview reviews c).rawText = c.rawText
    ∧ (applyReview reviews c).parsedMetadata = c.parsedMetadata
    ∧ (applyReview reviews c).confidenceScore = c.confidenceScore
    ∧ (applyReview reviews c).sourceUrl = c.sourceUrl
    ∧ (applyReview reviews c).verificationSource = c.verificationSource := by
  rw [applyReview]
  split
  · split
    · exact ⟨rfl, rfl, rfl, rfl, rfl, rfl⟩
    · exact ⟨rfl, rfl, rfl, rfl, rfl, rfl⟩
  · exact ⟨rfl, rfl, rfl, rfl, rfl, rfl⟩

/-- Witness for `applyReview_policy` at concrete inputs covering all three
cases. -/
theorem applyReview_policy_witness :
    applyReview ([] : List ReviewItem) sampleCitation = sampleCitation
    ∧ applyReview [sampleReviewSame] sampleCitation = sampleCitation
    ∧ (applyReview [sampleReviewDiff] sampleCitation).status = sampleReviewDiff.newStatus :=
  ⟨(applyReview_policy [] sampleCitation).1 (by simp),
   (applyReview_policy [sampleReviewSame] sampleCitation).2.1 sampleReviewSame rfl rfl,
   ((applyReview_policy [sampleReviewDiff] sampleCitation).2.2 sampleReviewDiff rfl
      (by decide)).1⟩
